import Mathlib

/-! # Verification of the gpg-tui command dispatcher (`src/app/launcher.rs`)

This file is a shallow embedding of the interactive state machine of the
repository: the application aggregate `App`, the command dispatcher
`App::run_command`, the refresh routine `App::refresh`, the tick handler
`App::tick` and the search filter of `App::get_keys_table_rows`, all
translated from `src/app/launcher.rs`.

The repository ships only `src/app/launcher.rs` and `src/gpg/mod.rs`; the
supporting modules it references (`app/prompt.rs`, `app/state.rs`,
`app/command.rs`, `app/mode.rs`, `app/tab.rs`, `gpg/key.rs`,
`widget/list.rs`, `widget/table.rs` and the event handler) are not part of
the sources.  Definitions for those parts carry a doc comment starting
with `Modelled from the spec:` and follow the specification's wording;
everything else is translated directly from the launcher source.

External collaborators (the GPGME engine, the clipboard, the operating
system) are modelled as capabilities living in an environment `Env`; each
fallible capability returns `Except`.  A dispatcher invocation yields an
`Outcome`: a normal return carrying the new application state together
with the trace of engine invocations, an error return (Rust's `?`
propagation of a `Result::Err`), or a process abort (`panic!` /
`.expect(..)`).
-/

set_option maxRecDepth 10000

namespace GpgTui

/-- Modelled from the spec: the output classification of a prompt message
(none / success / warning / failure / action); `src/app/prompt.rs` is not
among the sources. -/
inductive OutputType where
  | None
  | Success
  | Warning
  | Failure
  | Action
deriving DecidableEq, Repr

/-- Modelled from the spec: the application modes referenced by the
launcher (`src/app/mode.rs` is not among the sources).  `Copy` is the
per-record action mode that requires a non-empty selection. -/
inductive Mode where
  | Normal
  | Visual
  | Copy
deriving DecidableEq, Repr

/-- Modelled from the spec: the category tag of a record
("public"/"secret"); `src/gpg/key.rs` is not among the sources. -/
inductive KeyType where
  | Public
  | Secret
deriving DecidableEq, Repr

/-- Modelled from the spec: the detail-level ordinal of a record. -/
inductive KeyDetail where
  | Minimum
  | Standard
  | Full
deriving DecidableEq, Repr

/-- Modelled from the spec: the detail toggle is monotone and saturates at
the maximum ordinal (no wraparound). -/
def KeyDetail.increase : KeyDetail → KeyDetail
  | .Minimum => .Standard
  | .Standard => .Full
  | .Full => .Full

/-- Modelled from the spec: parsing a detail level name for `set detail`. -/
def KeyDetail.from_str (s : String) : Option KeyDetail :=
  if s = "minimum" then some .Minimum
  else if s = "standard" then some .Standard
  else if s = "full" then some .Full
  else none

/-- Display text of a detail level, used in `set detail` messages. -/
def KeyDetail.toText : KeyDetail → String
  | .Minimum => "minimum"
  | .Standard => "standard"
  | .Full => "full"

/-- Display text of a mode, used in `SwitchMode` / `set mode` messages. -/
def Mode.toText : Mode → String
  | .Normal => "normal"
  | .Visual => "visual"
  | .Copy => "copy"

/-- Modelled from the spec: parsing a mode name for `set mode`; an invalid
mode name is a locally recovered user input error. -/
def Mode.from_str (s : String) : Option Mode :=
  if s = "normal" then some .Normal
  else if s = "visual" then some .Visual
  else if s = "copy" then some .Copy
  else none

/-- Modelled from the spec: the copy targets of the `Copy` command
(`src/app/clipboard.rs` is not among the sources); the variants are the
ones matched by the launcher. -/
inductive CopyType where
  | TableRow (n : Nat)
  | Key
  | KeyId
  | KeyFingerprint
  | KeyUserId
deriving DecidableEq, Repr

/-- Display text of a copy target, used in the success message of `Copy`. -/
def CopyType.toText : CopyType → String
  | .TableRow n => "table row " ++ toString n
  | .Key => "exported key"
  | .KeyId => "key id"
  | .KeyFingerprint => "key fingerprint"
  | .KeyUserId => "user id"

/-- Modelled from the spec: scroll directions of the `Scroll` command
(`src/widget/row.rs` is not among the sources); the launcher matches
`Down`, `Up`, `Top`, `Bottom` and ignores the rest. -/
inductive ScrollDirection where
  | Up (amount : Nat)
  | Right (amount : Nat)
  | Down (amount : Nat)
  | Left (amount : Nat)
  | Top
  | Bottom
deriving DecidableEq, Repr

/-- Modelled from the spec: the closed command vocabulary of the
dispatcher (`src/app/command.rs` is not among the sources); the variants
and their payloads are exactly those matched by `App::run_command`. -/
inductive Command where
  | ShowHelp
  | ShowOutput (output_type : OutputType) (message : String)
  | ShowOptions
  | ListKeys (key_type : KeyType)
  | ImportKeys (keys : List String) (viaOs : Bool)
  | ExportKeys (key_type : KeyType) (patterns : List String)
  | DeleteKey (key_type : KeyType) (key_id : String)
  | SendKey (key_id : String)
  | GenerateKey
  | RefreshKeys
  | EditKey (key_id : String)
  | SignKey (key_id : String)
  | ToggleDetail (all : Bool)
  | Scroll (direction : ScrollDirection) (row : Bool)
  | Set (option : String) (value : String)
  | Get (option : String)
  | SwitchMode (mode : Mode)
  | Copy (copy_type : CopyType)
  | Paste
  | EnableInput
  | Search (query : Option String)
  | NextTab
  | PreviousTab
  | Refresh
  | Quit
  | Confirm (command : Command)
  | None
deriving DecidableEq, Repr

/-- Modelled from the spec: the view/tab state — record view of a
category, or the help view (`src/app/tab.rs` is not among the sources). -/
inductive Tab where
  | Keys (key_type : KeyType)
  | Help
deriving DecidableEq, Repr

/-- Modelled from the spec: tabs cycle through a fixed ordering. -/
def Tab.next : Tab → Tab
  | .Keys .Public => .Keys .Secret
  | .Keys .Secret => .Help
  | .Help => .Keys .Public

/-- Modelled from the spec: inverse cycle of `Tab.next`. -/
def Tab.previous : Tab → Tab
  | .Keys .Public => .Help
  | .Keys .Secret => .Keys .Public
  | .Help => .Keys .Secret

/-- Modelled from the spec: the command needed to enter a tab. -/
def Tab.get_command : Tab → Command
  | .Keys key_type => .ListKeys key_type
  | .Help => .ShowHelp

/-! ## String helpers (the launcher's string operations) -/

/-- Lowercase folding (Rust `str::to_lowercase`, restricted to the
character-wise folding `Char.toLower`). -/
def lowerString (s : String) : String := ⟨s.data.map Char.toLower⟩

/-- Helper for `strContains`: does `needle` occur as a contiguous infix of
the haystack character list (Rust `str::contains`)? -/
def containsSubAux (needle : List Char) : List Char → Bool
  | [] => needle.isEmpty
  | c :: rest => List.isPrefixOf needle (c :: rest) || containsSubAux needle rest

/-- Rust `haystack.contains(needle)` on strings. -/
def strContains (hay needle : String) : Bool :=
  containsSubAux needle.data hay.data

/-- Helper for `replacenSlash`: drop the first occurrence of a character. -/
def removeFirstChar (c : Char) : List Char → List Char
  | [] => []
  | x :: xs => if x = c then xs else x :: removeFirstChar c xs

/-- Rust `text.replacen("/", "", 1)`: remove the first occurrence of the
search sentinel from the prompt text. -/
def replacenSlash (s : String) : String := ⟨removeFirstChar '/' s.data⟩

/-- Rust `value.starts_with(c)` on a single character. -/
def startsWithChar (s : String) (c : Char) : Bool :=
  match s.data with
  | x :: _ => x = c
  | [] => false

/-- Rust `bool::from_str`: exactly "true" or "false". -/
def parseBool (s : String) : Option Bool :=
  if s = "true" then some true
  else if s = "false" then some false
  else none

/-- Helper for `parseU16`: accumulate decimal digits, rejecting any other
character. -/
def parseU16Aux (acc : Nat) : List Char → Option Nat
  | [] => some acc
  | c :: cs =>
    if c.isDigit then parseU16Aux (acc * 10 + (c.toNat - 48)) cs
    else none

/-- Rust `str::parse::<u16>()`: a non-empty string of decimal digits whose
value fits the `u16` range. -/
def parseU16 (s : String) : Option Nat :=
  match s.data with
  | [] => none
  | cs =>
    match parseU16Aux 0 cs with
    | some n => if n < 65536 then some n else none
    | Option.none => none

/-- Render a boolean the way Rust's `Display` does ("true"/"false"). -/
def boolString (b : Bool) : String := if b then "true" else "false"

/-- Modify the element at an index, leaving the list unchanged when the
index is out of range (Rust `Vec::get_mut` followed by an assignment). -/
def listModify (f : α → α) : Nat → List α → List α
  | _, [] => []
  | 0, x :: xs => f x :: xs
  | n + 1, x :: xs => x :: listModify f n xs

/-! ## Data model -/

/-- Modelled from the spec: a Record — stable identifier, category-tagged
item with a primary (subkey) and a secondary (user) projected field group,
each a function of the record's own detail level and of the minimized
display policy, plus the mutable detail level itself (`src/gpg/key.rs` is
not among the sources). -/
structure GpgKey where
  keyId : String
  fingerprint : String
  userId : String
  subkeyFields : KeyDetail → Bool → List String
  userFields : KeyDetail → Bool → List String
  detail : KeyDetail

/-- `GpgKey::get_id`. -/
def GpgKey.get_id (k : GpgKey) : String := k.keyId

/-- `GpgKey::get_fingerprint`. -/
def GpgKey.get_fingerprint (k : GpgKey) : String := k.fingerprint

/-- `GpgKey::get_user_id`. -/
def GpgKey.get_user_id (k : GpgKey) : String := k.userId

/-- `GpgKey::get_subkey_info(minimized)`: the primary field group projected
at the record's current detail level. -/
def GpgKey.get_subkey_info (k : GpgKey) (minimized : Bool) : List String :=
  k.subkeyFields k.detail minimized

/-- `GpgKey::get_user_info(minimized)`: the secondary field group projected
at the record's current detail level. -/
def GpgKey.get_user_info (k : GpgKey) (minimized : Bool) : List String :=
  k.userFields k.detail minimized

/-- Modelled from the spec: the cursor (`tui` selected index) and the
per-record vertical scroll offset of the record table
(`src/widget/table.rs` is not among the sources). -/
structure TableState where
  tui : Option Nat
  scroll : Nat
deriving DecidableEq, Repr

/-- Modelled from the spec: the Scrollable Record Container — an ordered
`items` sequence, the parallel unfiltered `default_items` sequence, and a
cursor/scroll state (`src/widget/table.rs` is not among the sources). -/
structure StatefulTable (α : Type) where
  items : List α
  default_items : List α
  state : TableState

/-- Modelled from the spec: `replace`/`with_items` resets the selection to
the first item when non-empty (else to none) and resets the scroll. -/
def StatefulTable.with_items (items : List α) : StatefulTable α :=
  { items := items
    default_items := items
    state := { tui := if items.isEmpty then none else some 0, scroll := 0 } }

/-- Modelled from the spec: `selected()` returns none when the container
is empty or the cursor is absent. -/
def StatefulTable.selected (t : StatefulTable α) : Option α :=
  match t.state.tui with
  | some i => t.items.get? i
  | Option.none => Option.none

/-- Modelled from the spec: `advance` by one, clamped to the last index,
a no-op on an empty container, resetting the scroll offset. -/
def StatefulTable.next (t : StatefulTable α) : StatefulTable α :=
  if t.items.isEmpty then t
  else
    let i := match t.state.tui with
      | some i => min (i + 1) (t.items.length - 1)
      | Option.none => 0
    { t with state := { tui := some i, scroll := 0 } }

/-- Modelled from the spec: `retreat` by one, clamped to the first index,
a no-op on an empty container, resetting the scroll offset. -/
def StatefulTable.previous (t : StatefulTable α) : StatefulTable α :=
  if t.items.isEmpty then t
  else
    let i := match t.state.tui with
      | some i => i - 1
      | Option.none => 0
    { t with state := { tui := some i, scroll := 0 } }

/-- Modelled from the spec: `scroll_row` adjusts the scroll offset of the
selected record, never going negative. -/
def StatefulTable.scroll_row (t : StatefulTable α) (d : ScrollDirection) :
    StatefulTable α :=
  match d with
  | .Up n => { t with state := { t.state with scroll := t.state.scroll - n } }
  | .Down n => { t with state := { t.state with scroll := t.state.scroll + n } }
  | _ => t

/-- Modelled from the spec: cursor state of a list-style view
(`src/widget/list.rs` is not among the sources). -/
structure ListState where
  selected : Option Nat
deriving DecidableEq, Repr

/-- Modelled from the spec: a list-style Scrollable Record Container used
for the options overlay and the help list. -/
structure StatefulList (α : Type) where
  items : List α
  state : ListState

/-- Modelled from the spec: wholesale construction, selecting the first
item when non-empty. -/
def StatefulList.with_items (items : List α) : StatefulList α :=
  { items := items
    state := { selected := if items.isEmpty then none else some 0 } }

/-- `state.select(..)` on a list. -/
def StatefulList.select (l : StatefulList α) (s : Option Nat) : StatefulList α :=
  { l with state := { selected := s } }

/-- Modelled from the spec: advance the list cursor by one, clamped. -/
def StatefulList.next (l : StatefulList α) : StatefulList α :=
  if l.items.isEmpty then l
  else
    let i := match l.state.selected with
      | some i => min (i + 1) (l.items.length - 1)
      | Option.none => 0
    l.select (some i)

/-- Modelled from the spec: retreat the list cursor by one, clamped. -/
def StatefulList.previous (l : StatefulList α) : StatefulList α :=
  if l.items.isEmpty then l
  else
    let i := match l.state.selected with
      | some i => i - 1
      | Option.none => 0
    l.select (some i)

/-- Modelled from the spec: one entry of the key bindings help list
(`src/app/keys.rs` is not among the sources); its content is opaque to the
dispatcher. -/
structure KeyBinding where
  description : String
deriving DecidableEq, Repr

/-- Modelled from the spec: the fixed key bindings list `KEY_BINDINGS`;
its content is irrelevant to the dispatcher, only its presence matters. -/
def KEY_BINDINGS : List KeyBinding := [⟨"key bindings"⟩]

/-- Modelled from the spec: the Prompt — a text buffer whose leading
sentinel encodes the entry mode, an output classification with its
message stored in the buffer, a creation timestamp for auto-expiry, and
the optional pending confirmation command (`src/app/prompt.rs` is not
among the sources). -/
structure Prompt where
  text : String
  output_type : OutputType
  clock : Option Nat
  command : Option Command

/-- Modelled from the spec: `Prompt::clear` resets the buffer, the output
classification, the timestamp and the pending confirmation. -/
def Prompt.clear : Prompt :=
  { text := "", output_type := .None, clock := none, command := none }

/-- Modelled from the spec: `Prompt::set_output` stores the classified
message and stamps the current time. -/
def Prompt.set_output (p : Prompt) (now : Nat) (output : OutputType × String) :
    Prompt :=
  { p with output_type := output.1, text := output.2, clock := some now }

/-- Modelled from the spec: `Prompt::set_command` stashes the inner
command as the Pending Confirmation and forces a confirmation display. -/
def Prompt.set_command (p : Prompt) (c : Command) : Prompt :=
  { p with command := some c, output_type := .Action }

/-- Modelled from the spec: `Prompt::enable_command_input` clears the
buffer and seeds the command sentinel. -/
def Prompt.enable_command_input : Prompt :=
  { Prompt.clear with text := ":" }

/-- Modelled from the spec: `Prompt::enable_search` enters search-entry
mode keeping the seeded buffer, discarding any output message. -/
def Prompt.enable_search (p : Prompt) : Prompt :=
  { p with output_type := .None, clock := none }

/-- Modelled from the spec: search-entry mode is encoded by the leading
search sentinel of the text buffer. -/
def Prompt.is_search_enabled (p : Prompt) : Bool :=
  startsWithChar p.text '/'

/-- Modelled from the spec: the application flags held in `State`
(`src/app/state.rs` is not among the sources). -/
structure State where
  running : Bool
  colored : Bool
  color : String
  minimized : Bool
  minimize_threshold : Nat
  show_options : Bool
deriving DecidableEq, Repr

/-- Modelled from the spec: `State::refresh`; the spec attributes no
effect to it beyond the default-hidden options overlay, so it only resets
the transient overlay-visibility flag. -/
def State.refresh (s : State) : State := { s with show_options := false }

/-- Modelled from the spec: the engine configuration carried by the GPGME
context (`src/gpg/config.rs` is not among the sources). -/
structure GpgConfig where
  armor : Bool
  output_dir : String
  default_key : Option String
deriving DecidableEq, Repr

/-- Clipboard capability: the behaviours of `set_contents`/`get_contents`
of an available clipboard context; each operation may fail. -/
structure ClipboardCtx where
  set_contents : String → Except String Unit
  get_contents : Except String String

/-- The external world: the current time and the behaviours of the engine,
process and filesystem capabilities, each fallible operation returning a
result or a textual error. -/
structure Env where
  now : Nat
  get_all_keys : Except String (KeyType → List GpgKey)
  import_keys : List String → Except String Nat
  export_keys : KeyType → List String → Except String String
  delete_key : KeyType → String → Except String Unit
  send_key : String → Except String String
  get_exported_keys : KeyType → List String → Except String String
  spawn_gpg : Except String (Except String Unit)
  path_exists : String → Bool

/-- One engine/process capability invocation, recorded in the dispatch
trace. -/
inductive EngineCall where
  | listAll
  | importKeys (paths : List String)
  | exportKeys (key_type : KeyType) (patterns : List String)
  | deleteKey (key_type : KeyType) (key_id : String)
  | sendKey (key_id : String)
  | getExportedKeys (key_type : KeyType) (patterns : List String)
  | spawnGpg
deriving DecidableEq, Repr

/-- Result of a dispatcher invocation: normal return, a propagated
`Result::Err` (Rust's `?`), or a process abort (`panic!`/`expect`). -/
inductive Outcome (α : Type) where
  | ok (value : α)
  | err (message : String)
  | panicked (message : String)

/-- The application aggregate `App` of `src/app/launcher.rs` (the GPGME
context is split into its mutable configuration, kept here, and its
operation behaviours, kept in `Env`). -/
structure App where
  state : State
  mode : Mode
  prompt : Prompt
  tab : Tab
  options : StatefulList Command
  key_bindings : StatefulList KeyBinding
  keys : KeyType → List GpgKey
  keys_table : StatefulTable GpgKey
  keys_table_states : KeyType → Option TableState
  keys_table_detail : KeyDetail
  keys_table_margin : Nat
  clipboard : Option ClipboardCtx
  gpgme : GpgConfig

/-- Max duration of prompt messages (`MESSAGE_DURATION`). -/
def MESSAGE_DURATION : Nat := 1750

/-! ## `App::refresh` and `App::tick` -/

/-- `App::refresh`: reset the transient state, clear the prompt, reselect
the first options entry, then re-fetch all categories (`?` propagation on
failure), clear the per-category cached states, reset the detail level and
row margin, and rebuild the active category's table from the fresh data. -/
def App.refresh (env : Env) (app : App) : Outcome (App × List EngineCall) :=
  let app := { app with
    state := app.state.refresh
    mode := Mode.Normal
    prompt := Prompt.clear
    options := app.options.select (some 0) }
  match env.get_all_keys with
  | .error e => .err e
  | .ok allKeys =>
    let app := { app with
      keys := allKeys
      keys_table_states := fun _ => none
      keys_table_detail := KeyDetail.Minimum
      keys_table_margin := 1 }
    let app := match app.tab with
      | .Keys key_type =>
        { app with keys_table := StatefulTable.with_items (allKeys key_type) }
      | .Help => app
    .ok (app, [EngineCall.listAll])

/-- `App::tick`: flush the prompt message once it is older than
`MESSAGE_DURATION` and no confirmation is pending. -/
def App.tick (now : Nat) (app : App) : App :=
  match app.prompt.clock with
  | some clock =>
    if now - clock > MESSAGE_DURATION && app.prompt.command.isNone then
      { app with prompt := Prompt.clear }
    else app
  | Option.none => app

/-! ## Dispatcher branches (`App::run_command`) -/

/-- The options-overlay entries built by `ShowOptions` on a record-view
tab, as listed in the source. -/
def keysOptionsList (app : App) (key_type : KeyType) (selected_key : GpgKey) :
    List Command :=
  [ Command.None,
    Command.ShowHelp,
    Command.Refresh,
    Command.RefreshKeys,
    Command.Set "prompt" ":import ",
    Command.Set "prompt" ":receive ",
    Command.ExportKeys key_type [selected_key.get_id],
    Command.ExportKeys key_type [],
    Command.Confirm (Command.DeleteKey key_type selected_key.get_id),
    Command.Confirm (Command.SendKey selected_key.get_id),
    Command.EditKey selected_key.get_id,
    Command.SignKey selected_key.get_id,
    Command.GenerateKey,
    Command.Set "armor" (boolString (!app.gpgme.armor)),
    Command.Copy CopyType.Key,
    Command.Copy CopyType.KeyId,
    Command.Copy CopyType.KeyFingerprint,
    Command.Copy CopyType.KeyUserId,
    Command.Copy (CopyType.TableRow 1),
    Command.Copy (CopyType.TableRow 2),
    Command.Paste,
    Command.ToggleDetail false,
    Command.ToggleDetail true,
    Command.Set "margin" (if app.keys_table_margin = 1 then "0" else "1"),
    Command.Set "minimized" (boolString (!app.state.minimized)),
    Command.Set "colored" (boolString (!app.state.colored)),
    (if app.mode = Mode.Visual then Command.SwitchMode Mode.Normal
     else Command.SwitchMode Mode.Visual),
    Command.Quit ]

/-- The options-overlay entries built by `ShowOptions` on the help tab. -/
def helpOptionsList (app : App) : List Command :=
  [ Command.None,
    Command.ListKeys KeyType.Public,
    Command.ListKeys KeyType.Secret,
    (if app.mode = Mode.Visual then Command.SwitchMode Mode.Normal
     else Command.SwitchMode Mode.Visual),
    Command.Refresh,
    Command.Quit ]

/-- `Command::ShowHelp` branch. -/
def showHelpCmd (app : App) : App :=
  let app := { app with tab := Tab.Help }
  if app.key_bindings.state.selected.isNone then
    { app with key_bindings := app.key_bindings.select (some 0) }
  else app

/-- `Command::ShowOptions` branch: rebuild the overlay list from the
current tab and selection (the selected-record lookup aborts via
`expect("invalid selection")` when it yields none), then restore or reset
the cursor. -/
def showOptionsCmd (app : App) : Outcome (App × Bool × List EngineCall) :=
  let prev_selection := app.options.state.selected
  let prev_item_count := app.options.items.length
  let newItems : Outcome (List Command) :=
    match app.tab with
    | .Keys key_type =>
      match app.keys_table.selected with
      | some selected_key => .ok (keysOptionsList app key_type selected_key)
      | Option.none => .panicked "invalid selection"
    | .Help => .ok (helpOptionsList app)
  match newItems with
  | .ok items =>
    let options := StatefulList.with_items items
    let options :=
      if prev_item_count = 0 || options.items.length = prev_item_count then
        options.select (prev_selection.or (some 0))
      else
        options.select (some 0)
    .ok ({ app with options := options }, true, [])
  | .err e => .err e
  | .panicked m => .panicked m

/-- `Command::ListKeys` branch: snapshot the previous category's table
state and default items, rebuild the target category's table from the
in-memory keys map, restore a cached state when present, and switch the
tab. -/
def listKeysCmd (app : App) (key_type : KeyType) : App :=
  let app :=
    match app.tab with
    | .Keys previous_key_type =>
      { app with
        keys_table_states := fun k =>
          if k = previous_key_type then some app.keys_table.state
          else app.keys_table_states k
        keys := fun k =>
          if k = previous_key_type then app.keys_table.default_items
          else app.keys k }
    | .Help => app
  let keys_table := StatefulTable.with_items (app.keys key_type)
  let keys_table :=
    match app.keys_table_states key_type with
    | some st => { keys_table with state := st }
    | Option.none => keys_table
  { app with keys_table := keys_table, tab := Tab.Keys key_type }

/-- `Command::ImportKeys(keys, false)` branch. -/
def importKeysCmd (env : Env) (app : App) (keys : List String) :
    Outcome (App × Bool × List EngineCall) :=
  if keys.isEmpty then
    .ok ({ app with
      prompt := app.prompt.set_output env.now (.Failure, "no files given") },
      false, [])
  else
    match env.import_keys keys with
    | .ok key_count =>
      match App.refresh env app with
      | .ok (app, tr) =>
        .ok ({ app with
          prompt := app.prompt.set_output env.now
            (.Success, toString key_count ++ " keys imported") },
          false, EngineCall.importKeys keys :: tr)
      | .err e => .err e
      | .panicked m => .panicked m
    | .error e =>
      .ok ({ app with
        prompt := app.prompt.set_output env.now (.Failure, "import error: " ++ e) },
        false, [EngineCall.importKeys keys])

/-- `Command::DeleteKey` branch: invoke the engine's delete, refreshing on
success and reporting the failure otherwise. -/
def deleteKeyCmd (env : Env) (app : App) (key_type : KeyType) (key_id : String) :
    Outcome (App × Bool × List EngineCall) :=
  match env.delete_key key_type key_id with
  | .ok _ =>
    match App.refresh env app with
    | .ok (app, tr) => .ok (app, false, EngineCall.deleteKey key_type key_id :: tr)
    | .err e => .err e
    | .panicked m => .panicked m
  | .error e =>
    .ok ({ app with
      prompt := app.prompt.set_output env.now (.Failure, "delete error: " ++ e) },
      false, [EngineCall.deleteKey key_type key_id])

/-- The external-process branch shared by `GenerateKey`, `RefreshKeys`,
`EditKey`, `SignKey` and `ImportKeys(_, true)`: spawn gpg, wait for it
(`?` propagation of a wait failure), refresh regardless of the exit
status, or report a failure to launch. -/
def osCommandCmd (env : Env) (app : App) :
    Outcome (App × Bool × List EngineCall) :=
  match env.spawn_gpg with
  | .ok waitResult =>
    match waitResult with
    | .ok _ =>
      match App.refresh env app with
      | .ok (app, tr) => .ok (app, false, EngineCall.spawnGpg :: tr)
      | .err e => .err e
      | .panicked m => .panicked m
    | .error e => .err e
  | .error e =>
    .ok ({ app with
      prompt := app.prompt.set_output env.now (.Failure, "execution error: " ++ e) },
      false, [EngineCall.spawnGpg])

/-- `Command::ToggleDetail(true)` branch: increase the global detail level
and propagate it to every item and default item. -/
def toggleDetailAllCmd (app : App) : App :=
  let d := app.keys_table_detail.increase
  { app with
    keys_table_detail := d
    keys_table := { app.keys_table with
      items := app.keys_table.items.map (fun k => { k with detail := d })
      default_items :=
        app.keys_table.default_items.map (fun k => { k with detail := d }) } }

/-- `Command::ToggleDetail(false)` branch: increase the selected record's
own detail level, mirrored into `default_items` when no filter is
active. -/
def toggleDetailOneCmd (app : App) : App :=
  match app.keys_table.state.tui with
  | some index =>
    let items :=
      listModify (fun k => { k with detail := k.detail.increase }) index
        app.keys_table.items
    let default_items :=
      if app.keys_table.items.length = app.keys_table.default_items.length then
        listModify (fun k => { k with detail := k.detail.increase }) index
          app.keys_table.default_items
      else app.keys_table.default_items
    { app with keys_table :=
        { app.keys_table with items := items, default_items := default_items } }
  | Option.none => app

/-- `Command::Scroll(direction, false)` branch: route the navigation to
the options overlay when visible, else to the help list on the help tab,
else to the record table; returns the updated app and the overlay
visibility flag. -/
def scrollCmd (app : App) (direction : ScrollDirection) : App × Bool :=
  match direction with
  | .Down _ =>
    if app.state.show_options then
      ({ app with options := app.options.next }, true)
    else if app.tab = Tab.Help then
      ({ app with key_bindings := app.key_bindings.next }, false)
    else
      ({ app with keys_table := app.keys_table.next }, false)
  | .Up _ =>
    if app.state.show_options then
      ({ app with options := app.options.previous }, true)
    else if app.tab = Tab.Help then
      ({ app with key_bindings := app.key_bindings.previous }, false)
    else
      ({ app with keys_table := app.keys_table.previous }, false)
  | .Top =>
    if app.state.show_options then
      ({ app with options := app.options.select (some 0) }, true)
    else if app.tab = Tab.Help then
      ({ app with key_bindings := app.key_bindings.select (some 0) }, false)
    else
      ({ app with keys_table := { app.keys_table with
          state := { app.keys_table.state with tui := some 0 } } }, false)
  | .Bottom =>
    if app.state.show_options then
      ({ app with options :=
          app.options.select (some (app.options.items.length - 1)) }, true)
    else if app.tab = Tab.Help then
      ({ app with key_bindings :=
          app.key_bindings.select (some (KEY_BINDINGS.length - 1)) }, false)
    else
      ({ app with keys_table := { app.keys_table with
          state := { app.keys_table.state with
            tui := some (app.keys_table.items.length - 1) } } }, false)
  | _ => (app, false)

/-- `Command::Set` branch: the "prompt" special case seeds the prompt
buffer when the value carries a command/search sentinel, else each
recognized option is validated and applied with its own message. -/
def setCmd (env : Env) (app : App) (option value : String) : App :=
  if option = "prompt" &&
      (startsWithChar value ':' || startsWithChar value '/') then
    { app with prompt := { Prompt.clear with text := value } }
  else
    match option with
    | "output" =>
      if env.path_exists value then
        { app with
          gpgme := { app.gpgme with output_dir := value }
          prompt := app.prompt.set_output env.now
            (.Success, "output directory: " ++ value) }
      else
        { app with
          prompt := app.prompt.set_output env.now (.Failure, "path does not exist") }
    | "mode" =>
      match Mode.from_str value with
      | some mode =>
        { app with
          mode := mode
          prompt := app.prompt.set_output env.now
            (.Success, "mode: " ++ mode.toText) }
      | Option.none =>
        { app with
          prompt := app.prompt.set_output env.now (.Failure, "invalid mode") }
    | "armor" =>
      match parseBool value with
      | some armor =>
        { app with
          gpgme := { app.gpgme with armor := armor }
          prompt := app.prompt.set_output env.now
            (.Success, "armor: " ++ boolString armor) }
      | Option.none =>
        { app with
          prompt := app.prompt.set_output env.now (.Failure, "usage: set armor <true/false>") }
    | "minimized" =>
      let state := { app.state with
        minimize_threshold := 0
        minimized := (parseBool value).getD false }
      { app with
        state := state
        prompt := app.prompt.set_output env.now
          (.Success, "minimized: " ++ boolString state.minimized) }
    | "minimize" =>
      let state := { app.state with
        minimize_threshold := (parseU16 value).getD 0 }
      { app with
        state := state
        prompt := app.prompt.set_output env.now
          (.Success, "minimize threshold: " ++ toString state.minimize_threshold) }
    | "detail" =>
      match KeyDetail.from_str value with
      | some detail_level =>
        let app :=
          match app.keys_table.state.tui with
          | some index =>
            let items :=
              listModify (fun k : GpgKey => { k with detail := detail_level })
                index app.keys_table.items
            let default_items :=
              if app.keys_table.items.length
                  = app.keys_table.default_items.length then
                listModify (fun k : GpgKey => { k with detail := detail_level })
                  index app.keys_table.default_items
              else app.keys_table.default_items
            { app with keys_table := { app.keys_table with
                items := items, default_items := default_items } }
          | Option.none => app
        { app with
          prompt := app.prompt.set_output env.now (.Success, "detail: " ++ detail_level.toText) }
      | Option.none =>
        { app with
          prompt := app.prompt.set_output env.now (.Failure, "usage: set detail <level>") }
    | "margin" =>
      let margin := (parseU16 value).getD 0
      { app with
        keys_table_margin := margin
        prompt := app.prompt.set_output env.now
          (.Success, "table margin: " ++ toString margin) }
    | "colored" =>
      match parseBool value with
      | some colored =>
        { app with
          state := { app.state with colored := colored }
          prompt := app.prompt.set_output env.now
            (.Success, "colored: " ++ boolString colored) }
      | Option.none =>
        { app with
          prompt := app.prompt.set_output env.now (.Failure, "usage: set colored <true/false>") }
    | "color" =>
      { app with
        state := { app.state with color := value }
        prompt := app.prompt.set_output env.now
          (.Success, "color: " ++ value) }
    | _ =>
      { app with
          prompt := app.prompt.set_output env.now (.Failure,
            if option ≠ "" then "unknown option: " ++ option
            else "usage: set <option> <value>") }

/-- `Command::Get` branch: report the current value of a recognized
option. -/
def getCmd (app : App) (now : Nat) (option : String) : App :=
  let output : OutputType × String :=
    match option with
    | "output" => (.Success, "output directory: " ++ app.gpgme.output_dir)
    | "mode" => (.Success, "mode: " ++ app.mode.toText)
    | "armor" => (.Success, "armor: " ++ boolString app.gpgme.armor)
    | "minimized" => (.Success, "minimized: " ++ boolString app.state.minimized)
    | "minimize" =>
      (.Success, "minimize threshold: " ++ toString app.state.minimize_threshold)
    | "detail" =>
      match app.keys_table.state.tui with
      | some index =>
        match app.keys_table.items.get? index with
        | some key => (.Success, "detail: " ++ key.detail.toText)
        | Option.none => (.Failure, "invalid selection")
      | Option.none => (.Failure, "unknown selection")
    | "margin" => (.Success, "table margin: " ++ toString app.keys_table_margin)
    | "colored" => (.Success, "colored: " ++ boolString app.state.colored)
    | "color" => (.Success, "color: " ++ app.state.color)
    | _ =>
      (.Failure,
        if option ≠ "" then "unknown option: " ++ option
        else "usage: get <option>")
  { app with prompt := app.prompt.set_output now output }

/-- The content computed for a copy target, together with any engine
invocation it required. -/
def copyContent (env : Env) (app : App) (selected_key : GpgKey)
    (copy_type : CopyType) : Except String String × List EngineCall :=
  match copy_type with
  | .TableRow 1 =>
    (.ok (String.intercalate "\n"
      (selected_key.get_subkey_info app.state.minimized)), [])
  | .TableRow 2 =>
    (.ok (String.intercalate "\n"
      (selected_key.get_user_info app.state.minimized)), [])
  | .TableRow _ => (.error "invalid row number", [])
  | .Key =>
    let key_type := match app.tab with
      | .Keys key_type => key_type
      | _ => KeyType.Public
    (env.get_exported_keys key_type [selected_key.get_id],
      [EngineCall.getExportedKeys key_type [selected_key.get_id]])
  | .KeyId => (.ok selected_key.get_id, [])
  | .KeyFingerprint => (.ok selected_key.get_fingerprint, [])
  | .KeyUserId => (.ok selected_key.get_user_id, [])

/-- `Command::Copy` branch: the selected-record lookup aborts via
`expect("invalid selection")`; a computed content is written to the
clipboard capability (aborting via `expect` when the write fails),
"clipboard not available" is reported when the capability is absent, a
content error is reported as "copy error", and the mode returns to
normal afterwards. -/
def copyCmd (env : Env) (app : App) (copy_type : CopyType) :
    Outcome (App × Bool × List EngineCall) :=
  match app.keys_table.selected with
  | Option.none => .panicked "invalid selection"
  | some selected_key =>
    let result := copyContent env app selected_key copy_type
    match result.1 with
    | .ok content =>
      match app.clipboard with
      | some clipboard =>
        match clipboard.set_contents content with
        | .ok _ =>
          .ok ({ app with
            prompt := app.prompt.set_output env.now
              (.Success, copy_type.toText ++ " copied to clipboard")
            mode := Mode.Normal }, false, result.2)
        | .error _ => .panicked "failed to set clipboard contents"
      | Option.none =>
        .ok ({ app with
          prompt := app.prompt.set_output env.now
            (.Failure, "clipboard not available")
          mode := Mode.Normal }, false, result.2)
    | .error e =>
      .ok ({ app with
        prompt := app.prompt.set_output env.now (.Failure, "copy error: " ++ e)
        mode := Mode.Normal }, false, result.2)

/-- `Command::Paste` branch: seed the prompt's command buffer from the
clipboard (aborting via `expect` when the read fails), or report
"clipboard not available" when the capability is absent. -/
def pasteCmd (env : Env) (app : App) : Outcome (App × Bool × List EngineCall) :=
  match app.clipboard with
  | some clipboard =>
    match clipboard.get_contents with
    | .ok contents =>
      .ok ({ app with
        prompt := { Prompt.clear with text := ⟨':' :: contents.data⟩ } },
        false, [])
    | .error _ => .panicked "failed to get clipboard contents"
  | Option.none =>
    .ok ({ app with
      prompt := app.prompt.set_output env.now
        (.Failure, "clipboard not available") }, false, [])

/-- `Command::Search` branch: seed the prompt with the search sentinel and
the optional query, enter search-entry mode, and reset the visible items
to the unfiltered `default_items`. -/
def searchCmd (app : App) (query : Option String) : App :=
  { app with
    prompt :=
      ({ app.prompt with
        text := ⟨'/' :: (query.getD "").data⟩ }).enable_search
    keys_table := { app.keys_table with
      items := app.keys_table.default_items } }

/-- `Command::SwitchMode` branch: rejected as a no-op when entering copy
mode with an empty record table. -/
def switchModeCmd (env : Env) (app : App) (mode : Mode) : App :=
  if !(mode = Mode.Copy && app.keys_table.items.isEmpty) then
    { app with
      mode := mode
      prompt := app.prompt.set_output env.now (.Action, mode.toText) }
  else app

/-- The dispatch on the command's tag (the big `match` of
`App::run_command`), yielding the mutated app, the recomputed overlay
visibility flag and the engine-call trace.  `NextTab`/`PreviousTab`
re-dispatch `self.tab.next().get_command()`; since that command is always
`ListKeys` or `ShowHelp` (and the pending confirmation was already
cleared), the recursive call is inlined as the corresponding branch, with
the outer invocation forcing the overlay hidden. -/
def dispatch (env : Env) (app : App) : Command → Outcome (App × Bool × List EngineCall)
  | .ShowHelp => .ok (showHelpCmd app, false, [])
  | .ShowOutput output_type message =>
    .ok ({ app with
      prompt := app.prompt.set_output env.now (output_type, message) },
      false, [])
  | .ShowOptions => showOptionsCmd app
  | .ListKeys key_type => .ok (listKeysCmd app key_type, false, [])
  | .ImportKeys keys false => importKeysCmd env app keys
  | .ImportKeys _ true => osCommandCmd env app
  | .ExportKeys key_type patterns =>
    .ok ({ app with
      prompt := app.prompt.set_output env.now
        (match env.export_keys key_type patterns with
          | .ok path => (.Success, "export: " ++ path)
          | .error e => (.Failure, "export error: " ++ e)) },
      false, [EngineCall.exportKeys key_type patterns])
  | .DeleteKey key_type key_id => deleteKeyCmd env app key_type key_id
  | .SendKey key_id =>
    .ok ({ app with
      prompt := app.prompt.set_output env.now
        (match env.send_key key_id with
          | .ok key_id =>
            (.Success, "key sent to the keyserver: 0x" ++ key_id)
          | .error e => (.Failure, "send error: " ++ e)) },
      false, [EngineCall.sendKey key_id])
  | .GenerateKey => osCommandCmd env app
  | .RefreshKeys => osCommandCmd env app
  | .EditKey _ => osCommandCmd env app
  | .SignKey _ => osCommandCmd env app
  | .ToggleDetail true => .ok (toggleDetailAllCmd app, false, [])
  | .ToggleDetail false => .ok (toggleDetailOneCmd app, false, [])
  | .Scroll direction false =>
    let result := scrollCmd app direction
    .ok (result.1, result.2, [])
  | .Scroll direction true =>
    .ok ({ app with keys_table := app.keys_table.scroll_row direction },
      false, [])
  | .Set option value => .ok (setCmd env app option value, false, [])
  | .Get option => .ok (getCmd app env.now option, false, [])
  | .SwitchMode mode => .ok (switchModeCmd env app mode, false, [])
  | .Copy copy_type => copyCmd env app copy_type
  | .Paste => pasteCmd env app
  | .EnableInput =>
    .ok ({ app with prompt := Prompt.enable_command_input }, false, [])
  | .Search query => .ok (searchCmd app query, false, [])
  | .NextTab =>
    (match app.tab.next with
      | .Keys key_type => .ok (listKeysCmd app key_type, false, [])
      | .Help => .ok (showHelpCmd app, false, []))
  | .PreviousTab =>
    (match app.tab.previous with
      | .Keys key_type => .ok (listKeysCmd app key_type, false, [])
      | .Help => .ok (showHelpCmd app, false, []))
  | .Refresh =>
    (match App.refresh env app with
      | .ok (app, tr) => .ok (app, false, tr)
      | .err e => .err e
      | .panicked m => .panicked m)
  | .Quit =>
    .ok ({ app with state := { app.state with running := false } }, false, [])
  | .Confirm _ => .ok (app, false, [])
  | .None => .ok (app, false, [])

/-- The confirmation step at the head of `App::run_command`: a `Confirm`
wrapper stashes its inner command as the Pending Confirmation, while any
other command clears an existing one. -/
def confirmStep (app : App) : Command → App
  | .Confirm cmd => { app with prompt := app.prompt.set_command cmd }
  | _ =>
    if app.prompt.command.isSome then { app with prompt := Prompt.clear }
    else app

/-- `App::run_command`: the confirmation step, the dispatch on the
command's tag, and the final recomputation of the overlay visibility. -/
def run_command (env : Env) (app : App) (command : Command) :
    Outcome (App × List EngineCall) :=
  match dispatch env (confirmStep app command) command with
  | .ok (app, show_options, tr) =>
    .ok ({ app with state := { app.state with show_options := show_options } },
      tr)
  | .err e => .err e
  | .panicked m => .panicked m

/-! ## The search filter of `App::get_keys_table_rows` -/

/-- The search term: the prompt text with the first search sentinel
removed, lowercase folded. -/
def search_term (p : Prompt) : String := lowerString (replacenSlash p.text)

/-- Does a record match the search term: the lowercase-folded joined text
of its primary (subkey) or secondary (user) field group contains the term
as a substring. -/
def key_matches_search (minimized : Bool) (term : String) (k : GpgKey) : Bool :=
  strContains
    (lowerString (String.intercalate "\n" (k.get_subkey_info minimized))) term
  || strContains
    (lowerString (String.intercalate "\n" (k.get_user_info minimized))) term

/-- The per-record predicate of the row builder's filter: keep every
record when search-entry mode is off, else keep the ones matching the
search term. -/
def rowFilterPred (app : App) (k : GpgKey) : Bool :=
  !app.prompt.is_search_enabled
  || key_matches_search app.state.minimized (search_term app.prompt) k

/-- The filtering effect of `App::get_keys_table_rows` on the visible
items (the row projection itself is rendering glue): `items` is replaced
by its filtered subsequence. -/
def get_keys_table_rows (app : App) : App :=
  { app with keys_table := { app.keys_table with
      items := app.keys_table.items.filter (rowFilterPred app) } }

/-- Modelled from the spec: clearing the prompt when leaving search mode
restores `items = default_items` unconditionally (the key-event handler
performing this is not among the sources). -/
def clearSearchMode (app : App) : App :=
  { app with
    prompt := Prompt.clear
    keys_table := { app.keys_table with
      items := app.keys_table.default_items } }

/-- The options-overlay list `ShowOptions` would build in the current
state: the per-tab candidate list, none when the record selection needed
by a record-view tab is absent. -/
def optionsListOf (app : App) : Option (List Command) :=
  match app.tab with
  | .Keys key_type => (app.keys_table.selected).map (keysOptionsList app key_type)
  | .Help => some (helpOptionsList app)

/-- Is a command the `Confirm` wrapper? -/
def Command.isConfirmCmd : Command → Bool
  | .Confirm _ => true
  | _ => false

/-- Project the application out of a normal dispatch outcome. -/
def outApp : Outcome (App × List EngineCall) → Option App
  | .ok (app, _) => some app
  | _ => none

/-- Project the engine-call trace out of a normal dispatch outcome. -/
def outTrace : Outcome (App × List EngineCall) → Option (List EngineCall)
  | .ok (_, tr) => some tr
  | _ => none

/-! ## Sample values used by the concrete witnesses -/

/-- A sample public key record ("alice"). -/
def keyA : GpgKey :=
  { keyId := "A111"
    fingerprint := "FPA"
    userId := "alice"
    subkeyFields := fun _ _ => ["rsa3072/A111"]
    userFields := fun _ _ => ["[u] Alice <alice@example.org>"]
    detail := .Minimum }

/-- A sample public key record ("bob"). -/
def keyB : GpgKey :=
  { keyId := "B222"
    fingerprint := "FPB"
    userId := "bob"
    subkeyFields := fun _ _ => ["rsa4096/B222"]
    userFields := fun _ _ => ["[u] Bob <bob@example.org>"]
    detail := .Minimum }

/-- A sample environment: every capability succeeds. -/
def env0 : Env :=
  { now := 0
    get_all_keys := .ok (fun _ => [keyA])
    import_keys := fun _ => .ok 1
    export_keys := fun _ _ => .ok "out.gpg"
    delete_key := fun _ _ => .ok ()
    send_key := fun key_id => .ok key_id
    get_exported_keys := fun _ _ => .ok "EXPORTED"
    spawn_gpg := .ok (.ok ())
    path_exists := fun _ => false }

/-- A clipboard whose operations succeed. -/
def clipOk : ClipboardCtx :=
  { set_contents := fun _ => .ok (), get_contents := .ok "list pub" }

/-- A clipboard whose operations fail. -/
def clipBad : ClipboardCtx :=
  { set_contents := fun _ => .error "lost", get_contents := .error "lost" }

/-- Sample application flags. -/
def state0 : State :=
  { running := true
    colored := false
    color := "reset"
    minimized := false
    minimize_threshold := 0
    show_options := false }

/-- Sample engine configuration. -/
def config0 : GpgConfig :=
  { armor := false, output_dir := "/tmp", default_key := none }

/-- A sample application whose record table is empty. -/
def appEmpty : App :=
  { state := state0
    mode := .Normal
    prompt := Prompt.clear
    tab := .Keys .Public
    options := StatefulList.with_items []
    key_bindings := StatefulList.with_items KEY_BINDINGS
    keys := fun _ => []
    keys_table := StatefulTable.with_items []
    keys_table_states := fun _ => none
    keys_table_detail := .Minimum
    keys_table_margin := 1
    clipboard := some clipOk
    gpgme := config0 }

/-- A sample application holding the two sample records. -/
def appAB : App :=
  { appEmpty with
    keys := fun _ => [keyA, keyB]
    keys_table := StatefulTable.with_items [keyA, keyB] }

/-- A sample application whose clipboard capability is absent. -/
def appNoClip : App := { appAB with clipboard := none }

/-- A sample application showing a timed success message stamped at 0. -/
def appMsg : App :=
  { appEmpty with prompt :=
    { text := "1 keys imported", output_type := .Success, clock := some 0,
      command := none } }

/-- A sample application with a pending confirmation. -/
def appPending : App :=
  { appAB with prompt := { Prompt.clear with command := some Command.Quit } }

/-- A sample application in search-entry mode with the query "bob". -/
def appSearchBob : App :=
  { appAB with prompt := { Prompt.clear with text := "/bob" } }

/-- A sample application on the public record view whose in-memory keys
map stores `keyA` under the secret category. -/
def appStored : App :=
  { appEmpty with keys := fun kt =>
      match kt with
      | KeyType.Secret => [keyA]
      | KeyType.Public => [] }

/-- A sample environment whose engine would deliver `keyB` on a fetch. -/
def env8 : Env := { env0 with get_all_keys := .ok (fun _ => [keyB]) }

/-- Like `appStored`, but the live public table holds `keyB`, so a
category switch must write `[keyB]` back into the keys map. -/
def appStored2 : App :=
  { appStored with keys_table := StatefulTable.with_items [keyB] }

/-- Audit predicate: a normal dispatch result carries no pending
confirmation. -/
def PendingNone : Outcome (App × Bool × List EngineCall) → Prop
  | .ok (a, _, _) => a.prompt.command = none
  | _ => True

/-- Audit predicate: the engine's delete appears in the trace only for a
plain `DeleteKey` command with the same arguments. -/
def NoDelete (c : Command) : Outcome (App × Bool × List EngineCall) → Prop
  | .ok (_, _, tr) =>
    ∀ kt id, EngineCall.deleteKey kt id ∈ tr → c = Command.DeleteKey kt id
  | _ => True

/-! ## Helper lemmas -/

/-- The confirmation step of `run_command` only ever rewrites the
prompt. -/
theorem confirmStep_eq (app : App) (c : Command) :
    ∃ p, confirmStep app c = { app with prompt := p } := by
  cases c
  case Confirm cmd => exact ⟨app.prompt.set_command cmd, rfl⟩
  all_goals
    exact if h : app.prompt.command.isSome
      then ⟨Prompt.clear, by simp [confirmStep, h]⟩
      else ⟨app.prompt, by simp [confirmStep, h]⟩

/-- An empty table has no selected record. -/
theorem selected_of_nil (t : StatefulTable GpgKey) (h : t.items = []) :
    t.selected = none := by
  unfold StatefulTable.selected
  cases ht : t.state.tui <;> simp [h]

/-- A successful refresh leaves the prompt cleared and reports exactly one
engine fetch. -/
theorem refresh_ok_inv (env : Env) (app : App) (a : App) (tr : List EngineCall)
    (h : App.refresh env app = .ok (a, tr)) :
    a.prompt = Prompt.clear ∧ tr = [EngineCall.listAll] := by
  unfold App.refresh at h
  cases hk : env.get_all_keys with
  | error e => rw [hk] at h; exact absurd h (by simp)
  | ok allKeys =>
    rw [hk] at h
    cases htab : app.tab with
    | Keys kt => rw [htab] at h; injection h with h'; cases h'; exact ⟨rfl, rfl⟩
    | Help => rw [htab] at h; injection h with h'; cases h'; exact ⟨rfl, rfl⟩

/-- The overlay candidate list ignores the prompt. -/
theorem optionsListOf_prompt (app : App) (p : Prompt) :
    optionsListOf { app with prompt := p } = optionsListOf app := rfl

/-- The overlay candidate list ignores the prompt, the stored overlay and
the overlay-visibility flag (everything a `ShowOptions` invocation
mutates). -/
theorem optionsListOf_overlay (app : App) (p : Prompt) (o : StatefulList Command)
    (so : Bool) :
    optionsListOf
      { app with
        prompt := p
        options := o
        state := { app.state with show_options := so } } = optionsListOf app := rfl

/-- `showOptionsCmd` rephrased through `optionsListOf`. -/
theorem showOptionsCmd_eq (app : App) :
    showOptionsCmd app =
      (match optionsListOf app with
      | some L =>
        .ok ({ app with options :=
          if app.options.items.length = 0
              || (StatefulList.with_items L).items.length = app.options.items.length
          then (StatefulList.with_items L).select (app.options.state.selected.or (some 0))
          else (StatefulList.with_items (α := Command) L).select (some 0) }, true, [])
      | Option.none => .panicked "invalid selection") := by
  unfold showOptionsCmd optionsListOf
  cases htab : app.tab with
  | Keys kt => cases hsel : app.keys_table.selected <;> simp
  | Help => simp

/-- The full effect of one `ShowOptions` dispatch when the candidate list
is defined. -/
theorem run_show_options (env : Env) (app : App) (items' : List Command)
    (h : optionsListOf app = some items') :
    ∃ p, run_command env app Command.ShowOptions =
      .ok ({ app with
        prompt := p
        options :=
          if app.options.items.length = 0
              || items'.length = app.options.items.length
            then (StatefulList.with_items items').select
              (app.options.state.selected.or (some 0))
            else (StatefulList.with_items items').select (some 0)
        state := { app.state with show_options := true } }, []) := by
  obtain ⟨p, hp⟩ := confirmStep_eq app Command.ShowOptions
  refine ⟨p, ?_⟩
  have h1 : optionsListOf { app with prompt := p } = some items' := by
    rw [optionsListOf_prompt, h]
  simp only [run_command, hp, dispatch, showOptionsCmd_eq, h1]
  rfl

/-- A second `ShowOptions` dispatch from a state already holding the same
candidate list (with a present cursor) keeps both list and cursor. -/
theorem run_show_options_again (env : Env) (a : App) (items' : List Command)
    (h : optionsListOf a = some items')
    (hitems : a.options.items = items')
    (hsome : a.options.state.selected.isSome = true) :
    ∃ a2, run_command env a Command.ShowOptions = .ok (a2, []) ∧
      a2.options.items = a.options.items ∧
      a2.options.state.selected = a.options.state.selected := by
  obtain ⟨p2, hr2⟩ := run_show_options env a items' h
  refine ⟨_, hr2, ?_, ?_⟩
  · rw [hitems]; split <;> rfl
  · have hlen : items'.length = a.options.items.length := by rw [hitems]
    have hb : (a.options.items.length = 0
        || items'.length = a.options.items.length) = true := by
      simp [hlen]
    rw [hb]
    obtain ⟨x, hx⟩ := Option.isSome_iff_exists.mp hsome
    simp [hx, StatefulList.with_items, StatefulList.select]

/-! ## Claim theorems -/

/-- C5: every (successful) invocation of refresh re-fetches all key
categories from the engine, clears all per-category cached table states,
resets the detail level to its minimum default and the row margin to 1,
resets the options-overlay selection to the first item, clears the
prompt, resets the mode to Normal, and rebuilds the active category's
table from the freshly fetched data. -/
theorem refresh_resets (env : Env) (app : App) (allKeys : KeyType → List GpgKey)
    (h : env.get_all_keys = .ok allKeys) :
    ∃ a, App.refresh env app = .ok (a, [EngineCall.listAll]) ∧
      a.keys = allKeys ∧
      (∀ kt, a.keys_table_states kt = none) ∧
      a.keys_table_detail = KeyDetail.Minimum ∧
      a.keys_table_margin = 1 ∧
      a.options.state.selected = some 0 ∧
      a.prompt = Prompt.clear ∧
      a.mode = Mode.Normal ∧
      a.tab = app.tab ∧
      (∀ kt, app.tab = Tab.Keys kt →
        a.keys_table = StatefulTable.with_items (allKeys kt)) := by
  unfold App.refresh
  rw [h]
  cases htab : app.tab with
  | Keys kt =>
    simp only [htab]
    refine ⟨_, rfl, rfl, fun _ => rfl, rfl, rfl, rfl, rfl, rfl, rfl, ?_⟩
    intro kt' hkt'
    injection hkt' with h'
    rw [h']
  | Help =>
    simp only [htab]
    exact ⟨_, rfl, rfl, fun _ => rfl, rfl, rfl, rfl, rfl, rfl, rfl,
      fun _ h' => by simp at h'⟩

/-- Witness for C5 at a concrete state. -/
theorem refresh_resets_witness :
    env0.get_all_keys = Except.ok (fun _ => [keyA]) ∧
    (outApp (App.refresh env0 appEmpty)).map
      (fun a => (a.keys_table_margin, a.mode, a.keys_table_detail))
      = some (1, Mode.Normal, KeyDetail.Minimum) := by
  refine ⟨rfl, ?_⟩
  obtain ⟨a, h1, _, _, h4, h5, _, _, h8, _, _⟩ :=
    refresh_resets env0 appEmpty (fun _ => [keyA]) rfl
  rw [h1]
  simp [outApp, h4, h5, h8]

/-- C6: on a tick event, the prompt's timed message is cleared iff its
elapsed time exceeds 1750 milliseconds and no pending confirmation is
set; while a pending confirmation exists the message never auto-expires,
regardless of elapsed time. -/
theorem tick_message_expiry (now clock : Nat) (app : App)
    (h : app.prompt.clock = some clock) :
    ((App.tick now app).prompt.clock = none ↔
      (MESSAGE_DURATION < now - clock ∧ app.prompt.command = none)) ∧
    (∀ c, app.prompt.command = some c → App.tick now app = app) := by
  constructor
  · unfold App.tick
    rw [h]
    rcases hc : app.prompt.command with _ | c
    · by_cases h1 : MESSAGE_DURATION < now - clock
      · simp [h1, Prompt.clear]
      · simp [h1, h]
    · simp [hc, h]
  · intro c hc
    unfold App.tick
    rw [h, hc]
    simp

/-- C9: `Set("minimized", v)` unconditionally zeroes the minimize
threshold; an unparseable value stores the default `false` and still
reports success. -/
theorem set_minimized_forces_threshold (env : Env) (app : App) (v : String) :
    ∃ a, run_command env app (Command.Set "minimized" v) = .ok (a, []) ∧
      a.state.minimize_threshold = 0 ∧
      a.state.minimized = (parseBool v).getD false ∧
      (parseBool v = none → a.state.minimized = false) ∧
      a.prompt.output_type = OutputType.Success := by
  obtain ⟨p, hp⟩ := confirmStep_eq app (Command.Set "minimized" v)
  simp only [run_command, hp, dispatch]
  refine ⟨_, rfl, ?_, ?_, ?_, ?_⟩
  · simp [setCmd]
  · simp [setCmd]
  · intro h; simp [setCmd, h]
  · simp [setCmd, Prompt.set_output]

/-- Witness for C9 at a concrete unparseable value. -/
theorem set_minimized_forces_threshold_witness :
    (outApp (run_command env0 appAB (Command.Set "minimized" "notabool"))).map
      (fun a => (a.state.minimize_threshold, a.state.minimized,
        a.prompt.output_type))
      = some (0, false, OutputType.Success) := by
  obtain ⟨a, h1, h2, h3, h4, h5⟩ :=
    set_minimized_forces_threshold env0 appAB "notabool"
  rw [h1]
  simp [outApp, h2, h4 rfl, h5]

/-- C10: `ShowOptions` on a record-view tab aborts via the panicking
`expect("invalid selection")` when the record table is empty, and only a
present selection makes the dispatch return normally. -/
theorem show_options_selection_precondition (env : Env) (app : App)
    (kt : KeyType) (htab : app.tab = Tab.Keys kt) :
    (app.keys_table.items = [] →
      run_command env app Command.ShowOptions = .panicked "invalid selection") ∧
    (∀ k, app.keys_table.selected = some k →
      ∃ a, run_command env app Command.ShowOptions = .ok (a, [])) := by
  obtain ⟨p, hp⟩ := confirmStep_eq app Command.ShowOptions
  constructor
  · intro hempty
    have hsel : app.keys_table.selected = none := selected_of_nil _ hempty
    simp [run_command, hp, dispatch, showOptionsCmd, htab, hsel]
  · intro k hk
    simp only [run_command, hp, dispatch, showOptionsCmd, htab, hk]
    exact ⟨_, rfl⟩

/-- Witness for C10: its abort branch at a concrete empty-table state. -/
theorem show_options_selection_precondition_witness :
    run_command env0 appEmpty Command.ShowOptions
      = Outcome.panicked "invalid selection" :=
  (show_options_selection_precondition env0 appEmpty KeyType.Public rfl).1 rfl

/-- C7: the `ShowOptions` cursor is kept iff the previous overlay list was
empty or the new list has the same length, else it resets to the first
item; two consecutive invocations with no intervening state change yield
identical lists and preserve the cursor. -/
theorem show_options_cursor (env : Env) (app : App) (items' : List Command)
    (h : optionsListOf app = some items') :
    ∃ a, run_command env app Command.ShowOptions = .ok (a, []) ∧
      a.options.items = items' ∧
      a.options.state.selected =
        (if app.options.items.length = 0
            ∨ items'.length = app.options.items.length
          then app.options.state.selected.or (some 0)
          else some 0) ∧
      ∃ a2, run_command env a Command.ShowOptions = .ok (a2, []) ∧
        a2.options.items = a.options.items ∧
        a2.options.state.selected = a.options.state.selected := by
  obtain ⟨p, hr⟩ := run_show_options env app items' h
  refine ⟨_, hr, ?_, ?_, ?_⟩
  · split <;> rfl
  · simp only [StatefulList.with_items, StatefulList.select,
      Bool.or_eq_true, decide_eq_true_eq]
    by_cases hc : app.options.items.length = 0
        ∨ items'.length = app.options.items.length
    · rw [if_pos hc, if_pos hc]
    · rw [if_neg hc, if_neg hc]
  · refine run_show_options_again env _ items' ?_ ?_ ?_
    · rw [optionsListOf_overlay, h]
    · split <;> rfl
    · split
      · cases app.options.state.selected <;> rfl
      · rfl

/-- Witness for C7 at a concrete state holding two records. -/
theorem show_options_cursor_witness :
    (outApp (run_command env0 appAB Command.ShowOptions)).map
      (fun a => (a.options.items.length, a.options.state.selected))
      = some (28, some 0) := by
  obtain ⟨a, h1, h2, h3, _⟩ :=
    show_options_cursor env0 appAB (keysOptionsList appAB KeyType.Public keyA) rfl
  rw [h1]
  simp [outApp, h2, h3, keysOptionsList, appAB, appEmpty, StatefulList.with_items]

/-- Witness for C6 at a concrete timed message older than the duration. -/
theorem tick_message_expiry_witness :
    (App.tick 2000 appMsg).prompt.clock = none ∧
    appMsg.prompt.clock = some 0 :=
  ⟨(tick_message_expiry 2000 0 appMsg rfl).1.mpr ⟨by decide, rfl⟩, rfl⟩

/-- The confirmation step leaves no pending confirmation behind any
non-`Confirm` command. -/
theorem confirmStep_command_none (app : App) (c : Command)
    (hc : c.isConfirmCmd = false) :
    (confirmStep app c).prompt.command = none := by
  cases c
  case Confirm cmd => simp [Command.isConfirmCmd] at hc
  all_goals
    cases hcmd : app.prompt.command with
    | some x => simp [confirmStep, hcmd, Prompt.clear]
    | none => simp [confirmStep, hcmd]

/-- The `ShowHelp` branch does not touch the prompt. -/
theorem showHelpCmd_prompt (app : App) :
    (showHelpCmd app).prompt = app.prompt := by
  cases h : app.key_bindings.state.selected.isNone <;> simp [showHelpCmd, h]

/-- The `ListKeys` branch does not touch the prompt. -/
theorem listKeysCmd_prompt (app : App) (kt : KeyType) :
    (listKeysCmd app kt).prompt = app.prompt := by
  unfold listKeysCmd
  cases app.tab <;> (try split) <;> rfl

/-- The navigation branch does not touch the prompt. -/
theorem scrollCmd_prompt (app : App) (d : ScrollDirection) :
    (scrollCmd app d).1.prompt = app.prompt := by
  cases d <;> simp only [scrollCmd] <;> (try split) <;> (try split) <;> rfl

/-- The `Set` branch never installs a pending confirmation. -/
theorem setCmd_command (env : Env) (app : App) (o v : String)
    (h : app.prompt.command = none) :
    (setCmd env app o v).prompt.command = none := by
  unfold setCmd
  split
  · rfl
  · split <;> try split
    all_goals try split
    all_goals simp [Prompt.set_output, h]

/-- Copy-content computation never invokes the engine's delete. -/
theorem copyContent_no_delete (env : Env) (app : App) (k : GpgKey)
    (ct : CopyType) (kt : KeyType) (id : String) :
    EngineCall.deleteKey kt id ∉ (copyContent env app k ct).2 := by
  cases ct with
  | TableRow n =>
    rcases n with _ | _ | _ | n <;> simp [copyContent]
  | Key => simp [copyContent]
  | KeyId => simp [copyContent]
  | KeyFingerprint => simp [copyContent]
  | KeyUserId => simp [copyContent]

/-- Copy-content computation ignores the prompt. -/
theorem copyContent_prompt (env : Env) (app : App) (p : Prompt) (k : GpgKey)
    (ct : CopyType) :
    copyContent env { app with prompt := p } k ct = copyContent env app k ct := rfl

/-- Every string contains the empty search term. -/
theorem strContains_empty (hay : String) : strContains hay "" = true := by
  unfold strContains
  show containsSubAux [] hay.data = true
  induction hay.data with
  | nil => rfl
  | cons c rest ih => simp [containsSubAux, List.isPrefixOf, ih]


/-- Inventory over every dispatch branch: with no pending confirmation
on entry, a normal dispatch result still has none, and the engine delete
appears in the trace only for a plain `DeleteKey`. -/
theorem dispatch_ok_inv (env : Env) (app : App) (c : Command)
    (hcmd : app.prompt.command = none) :
    PendingNone (dispatch env app c) ∧ NoDelete c (dispatch env app c) := by
  cases c with
  | ShowHelp =>
    exact ⟨by simp [dispatch, PendingNone, showHelpCmd_prompt, hcmd],
      by simp [dispatch, NoDelete]⟩
  | ShowOutput t m =>
    exact ⟨by simp [dispatch, PendingNone, Prompt.set_output, hcmd],
      by simp [dispatch, NoDelete]⟩
  | ShowOptions =>
    rw [dispatch, showOptionsCmd_eq]
    cases ho : optionsListOf app with
    | some L => exact ⟨by simp [PendingNone, hcmd], by simp [NoDelete]⟩
    | none => exact ⟨trivial, trivial⟩
  | ListKeys kt =>
    exact ⟨by simp [dispatch, PendingNone, listKeysCmd_prompt, hcmd],
      by simp [dispatch, NoDelete]⟩
  | ImportKeys keys viaOs =>
    cases viaOs with
    | false =>
      rw [dispatch, importKeysCmd]
      cases hke : keys.isEmpty with
      | true =>
        rw [if_pos rfl]
        exact ⟨by simp [PendingNone, Prompt.set_output, hcmd],
          by simp [NoDelete]⟩
      | false =>
        rw [if_neg Bool.false_ne_true]
        cases him : env.import_keys keys with
        | error e =>
          exact ⟨by simp [PendingNone, Prompt.set_output, hcmd],
            by simp [NoDelete]⟩
        | ok n =>
          cases hr : App.refresh env app with
          | ok x =>
            obtain ⟨hpr, htr⟩ := refresh_ok_inv env app x.1 x.2 (by rw [hr])
            constructor
            · simp [PendingNone, Prompt.set_output, hpr, Prompt.clear]
            · simp [NoDelete, htr]
          | err e => exact ⟨trivial, trivial⟩
          | panicked m => exact ⟨trivial, trivial⟩
    | true =>
      rw [dispatch]
      cases hs : env.spawn_gpg with
      | error e =>
        exact ⟨by simp [osCommandCmd, hs, PendingNone, Prompt.set_output, hcmd],
          by simp [osCommandCmd, hs, NoDelete]⟩
      | ok w =>
        cases w with
        | error e => exact ⟨by simp [osCommandCmd, hs, PendingNone],
            by simp [osCommandCmd, hs, NoDelete]⟩
        | ok u =>
          cases hr : App.refresh env app with
          | ok x =>
            obtain ⟨hpr, htr⟩ := refresh_ok_inv env app x.1 x.2 (by rw [hr])
            constructor
            · simp [osCommandCmd, hs, hr, PendingNone, hpr, Prompt.clear]
            · simp [osCommandCmd, hs, hr, NoDelete, htr]
          | err e => exact ⟨by simp [osCommandCmd, hs, hr, PendingNone],
              by simp [osCommandCmd, hs, hr, NoDelete]⟩
          | panicked m => exact ⟨by simp [osCommandCmd, hs, hr, PendingNone],
              by simp [osCommandCmd, hs, hr, NoDelete]⟩
  | ExportKeys kt patterns =>
    exact ⟨by simp [dispatch, PendingNone, Prompt.set_output, hcmd],
      by simp [dispatch, NoDelete]⟩
  | DeleteKey kt0 id0 =>
    rw [dispatch, deleteKeyCmd]
    cases hdel : env.delete_key kt0 id0 with
    | error e =>
      constructor
      · simp [PendingNone, Prompt.set_output, hcmd]
      · simp only [NoDelete]
        intro kt id hmem
        simp at hmem
        obtain ⟨h1, h2⟩ := hmem
        rw [h1, h2]
    | ok u =>
      cases hr : App.refresh env app with
      | ok x =>
        obtain ⟨hpr, htr⟩ := refresh_ok_inv env app x.1 x.2 (by rw [hr])
        constructor
        · simp [PendingNone, hpr, Prompt.clear]
        · simp only [NoDelete, htr]
          intro kt id hmem
          simp at hmem
          obtain ⟨h1, h2⟩ := hmem
          rw [h1, h2]
      | err e => exact ⟨trivial, trivial⟩
      | panicked m => exact ⟨trivial, trivial⟩
  | SendKey key_id =>
    exact ⟨by simp [dispatch, PendingNone, Prompt.set_output, hcmd],
      by simp [dispatch, NoDelete]⟩
  | GenerateKey =>
    rw [dispatch]
    cases hs : env.spawn_gpg with
    | error e =>
      exact ⟨by simp [osCommandCmd, hs, PendingNone, Prompt.set_output, hcmd],
        by simp [osCommandCmd, hs, NoDelete]⟩
    | ok w =>
      cases w with
      | error e => exact ⟨by simp [osCommandCmd, hs, PendingNone],
          by simp [osCommandCmd, hs, NoDelete]⟩
      | ok u =>
        cases hr : App.refresh env app with
        | ok x =>
          obtain ⟨hpr, htr⟩ := refresh_ok_inv env app x.1 x.2 (by rw [hr])
          exact ⟨by simp [osCommandCmd, hs, hr, PendingNone, hpr, Prompt.clear],
            by simp [osCommandCmd, hs, hr, NoDelete, htr]⟩
        | err e => exact ⟨by simp [osCommandCmd, hs, hr, PendingNone],
            by simp [osCommandCmd, hs, hr, NoDelete]⟩
        | panicked m => exact ⟨by simp [osCommandCmd, hs, hr, PendingNone],
            by simp [osCommandCmd, hs, hr, NoDelete]⟩
  | RefreshKeys =>
    rw [dispatch]
    cases hs : env.spawn_gpg with
    | error e =>
      exact ⟨by simp [osCommandCmd, hs, PendingNone, Prompt.set_output, hcmd],
        by simp [osCommandCmd, hs, NoDelete]⟩
    | ok w =>
      cases w with
      | error e => exact ⟨by simp [osCommandCmd, hs, PendingNone],
          by simp [osCommandCmd, hs, NoDelete]⟩
      | ok u =>
        cases hr : App.refresh env app with
        | ok x =>
          obtain ⟨hpr, htr⟩ := refresh_ok_inv env app x.1 x.2 (by rw [hr])
          exact ⟨by simp [osCommandCmd, hs, hr, PendingNone, hpr, Prompt.clear],
            by simp [osCommandCmd, hs, hr, NoDelete, htr]⟩
        | err e => exact ⟨by simp [osCommandCmd, hs, hr, PendingNone],
            by simp [osCommandCmd, hs, hr, NoDelete]⟩
        | panicked m => exact ⟨by simp [osCommandCmd, hs, hr, PendingNone],
            by simp [osCommandCmd, hs, hr, NoDelete]⟩
  | EditKey key_id =>
    rw [dispatch]
    cases hs : env.spawn_gpg with
    | error e =>
      exact ⟨by simp [osCommandCmd, hs, PendingNone, Prompt.set_output, hcmd],
        by simp [osCommandCmd, hs, NoDelete]⟩
    | ok w =>
      cases w with
      | error e => exact ⟨by simp [osCommandCmd, hs, PendingNone],
          by simp [osCommandCmd, hs, NoDelete]⟩
      | ok u =>
        cases hr : App.refresh env app with
        | ok x =>
          obtain ⟨hpr, htr⟩ := refresh_ok_inv env app x.1 x.2 (by rw [hr])
          exact ⟨by simp [osCommandCmd, hs, hr, PendingNone, hpr, Prompt.clear],
            by simp [osCommandCmd, hs, hr, NoDelete, htr]⟩
        | err e => exact ⟨by simp [osCommandCmd, hs, hr, PendingNone],
            by simp [osCommandCmd, hs, hr, NoDelete]⟩
        | panicked m => exact ⟨by simp [osCommandCmd, hs, hr, PendingNone],
            by simp [osCommandCmd, hs, hr, NoDelete]⟩
  | SignKey key_id =>
    rw [dispatch]
    cases hs : env.spawn_gpg with
    | error e =>
      exact ⟨by simp [osCommandCmd, hs, PendingNone, Prompt.set_output, hcmd],
        by simp [osCommandCmd, hs, NoDelete]⟩
    | ok w =>
      cases w with
      | error e => exact ⟨by simp [osCommandCmd, hs, PendingNone],
          by simp [osCommandCmd, hs, NoDelete]⟩
      | ok u =>
        cases hr : App.refresh env app with
        | ok x =>
          obtain ⟨hpr, htr⟩ := refresh_ok_inv env app x.1 x.2 (by rw [hr])
          exact ⟨by simp [osCommandCmd, hs, hr, PendingNone, hpr, Prompt.clear],
            by simp [osCommandCmd, hs, hr, NoDelete, htr]⟩
        | err e => exact ⟨by simp [osCommandCmd, hs, hr, PendingNone],
            by simp [osCommandCmd, hs, hr, NoDelete]⟩
        | panicked m => exact ⟨by simp [osCommandCmd, hs, hr, PendingNone],
            by simp [osCommandCmd, hs, hr, NoDelete]⟩
  | ToggleDetail all =>
    cases all with
    | true =>
      exact ⟨by simp [dispatch, PendingNone, toggleDetailAllCmd, hcmd],
        by simp [dispatch, NoDelete]⟩
    | false =>
      constructor
      · rw [dispatch]
        simp only [PendingNone, toggleDetailOneCmd]
        cases ht : app.keys_table.state.tui <;> simp [hcmd]
      · simp [dispatch, NoDelete]
  | Scroll d row =>
    cases row with
    | false =>
      exact ⟨by simp [dispatch, PendingNone, scrollCmd_prompt, hcmd],
        by simp [dispatch, NoDelete]⟩
    | true =>
      exact ⟨by simp [dispatch, PendingNone, hcmd], by simp [dispatch, NoDelete]⟩
  | Set o v =>
    exact ⟨by simp [dispatch, PendingNone, setCmd_command env app o v hcmd],
      by simp [dispatch, NoDelete]⟩
  | Get o =>
    exact ⟨by simp [dispatch, PendingNone, getCmd, Prompt.set_output, hcmd],
      by simp [dispatch, NoDelete]⟩
  | SwitchMode m =>
    constructor
    · rw [dispatch]
      simp only [PendingNone, switchModeCmd]
      split <;> simp [Prompt.set_output, hcmd]
    · simp [dispatch, NoDelete]
  | Copy ct =>
    rw [dispatch, copyCmd]
    cases hsel : app.keys_table.selected with
    | none => exact ⟨trivial, trivial⟩
    | some k =>
      cases hcontent : (copyContent env app k ct).1 with
      | error e =>
        exact ⟨by simp [hcontent, PendingNone, Prompt.set_output, hcmd],
          by simp only [hcontent, NoDelete]
             exact fun kt id hmem =>
               absurd hmem (copyContent_no_delete env app k ct kt id)⟩
      | ok content =>
        cases hclip : app.clipboard with
        | none =>
          exact ⟨by simp [hcontent, hclip, PendingNone, Prompt.set_output, hcmd],
            by simp only [hcontent, hclip, NoDelete]
               exact fun kt id hmem =>
                 absurd hmem (copyContent_no_delete env app k ct kt id)⟩
        | some cb =>
          cases hset : cb.set_contents content with
          | error e => exact ⟨by simp [hcontent, hclip, hset, PendingNone],
              by simp [hcontent, hclip, hset, NoDelete]⟩
          | ok u =>
            exact ⟨by simp [hcontent, hclip, hset, PendingNone,
                Prompt.set_output, hcmd],
              by simp only [hcontent, hclip, hset, NoDelete]
                 exact fun kt id hmem =>
                   absurd hmem (copyContent_no_delete env app k ct kt id)⟩
  | Paste =>
    rw [dispatch, pasteCmd]
    cases hclip : app.clipboard with
    | none =>
      exact ⟨by simp [PendingNone, Prompt.set_output, hcmd],
        by simp [NoDelete]⟩
    | some cb =>
      cases hget : cb.get_contents with
      | error e => exact ⟨by simp [hget, PendingNone], by simp [hget, NoDelete]⟩
      | ok contents =>
        exact ⟨by simp [hget, PendingNone, Prompt.clear],
          by simp [hget, NoDelete]⟩
  | EnableInput =>
    exact ⟨by simp [dispatch, PendingNone, Prompt.enable_command_input,
        Prompt.clear],
      by simp [dispatch, NoDelete]⟩
  | Search q =>
    exact ⟨by simp [dispatch, PendingNone, searchCmd, Prompt.enable_search, hcmd],
      by simp [dispatch, NoDelete]⟩
  | NextTab =>
    rw [dispatch]
    cases ht : app.tab.next with
    | Keys kt =>
      exact ⟨by simp [PendingNone, listKeysCmd_prompt, hcmd],
        by simp [NoDelete]⟩
    | Help =>
      exact ⟨by simp [PendingNone, showHelpCmd_prompt, hcmd],
        by simp [NoDelete]⟩
  | PreviousTab =>
    rw [dispatch]
    cases ht : app.tab.previous with
    | Keys kt =>
      exact ⟨by simp [PendingNone, listKeysCmd_prompt, hcmd],
        by simp [NoDelete]⟩
    | Help =>
      exact ⟨by simp [PendingNone, showHelpCmd_prompt, hcmd],
        by simp [NoDelete]⟩
  | Refresh =>
    rw [dispatch]
    cases hr : App.refresh env app with
    | ok x =>
      obtain ⟨hpr, htr⟩ := refresh_ok_inv env app x.1 x.2 (by rw [hr])
      exact ⟨by simp [PendingNone, hpr, Prompt.clear], by simp [NoDelete, htr]⟩
    | err e => exact ⟨trivial, trivial⟩
    | panicked m => exact ⟨trivial, trivial⟩
  | Quit =>
    exact ⟨by simp [dispatch, PendingNone, hcmd], by simp [dispatch, NoDelete]⟩
  | Confirm c' =>
    exact ⟨by simp [dispatch, PendingNone, hcmd], by simp [dispatch, NoDelete]⟩
  | None =>
    exact ⟨by simp [dispatch, PendingNone, hcmd], by simp [dispatch, NoDelete]⟩

/-- Inventory over `run_command`: a normal result of a non-`Confirm`
command carries no pending confirmation, and the engine delete is traced
only for the plain `DeleteKey` command. -/
theorem run_ok_inv (env : Env) (app : App) (c : Command) (a : App)
    (tr : List EngineCall) (h : run_command env app c = .ok (a, tr)) :
    (c.isConfirmCmd = true ∨ a.prompt.command = none) ∧
    (∀ kt id, EngineCall.deleteKey kt id ∈ tr → c = Command.DeleteKey kt id) := by
  cases hC : c.isConfirmCmd with
  | false =>
    have hp := confirmStep_command_none app c hC
    obtain ⟨h1, h2⟩ := dispatch_ok_inv env (confirmStep app c) c hp
    unfold run_command at h
    cases hd : dispatch env (confirmStep app c) c with
    | ok x =>
      obtain ⟨a', so', tr'⟩ := x
      rw [hd] at h h1 h2
      simp only [PendingNone] at h1
      simp only [NoDelete] at h2
      injection h with h'
      injection h' with ha htr
      subst ha
      subst htr
      exact ⟨Or.inr h1, h2⟩
    | err e =>
      rw [hd] at h
      exact absurd h (by simp)
    | panicked m =>
      rw [hd] at h
      exact absurd h (by simp)
  | true =>
    refine ⟨Or.inl rfl, ?_⟩
    obtain ⟨c', rfl⟩ : ∃ c', c = Command.Confirm c' := by
      cases c <;> first | exact ⟨_, rfl⟩ | simp [Command.isConfirmCmd] at hC
    simp only [run_command, dispatch] at h
    injection h with h'
    injection h' with ha htr
    subst htr
    intro kt id hmem
    simp at hmem

/-- C1 counterexample: dispatching `Copy` on an empty record table aborts
the process via the panicking `expect("invalid selection")`, contradicting
"running the Copy or Paste command never aborts the process". -/
theorem copy_empty_table_aborts :
    run_command env0 appEmpty (Command.Copy CopyType.KeyId)
      = Outcome.panicked "invalid selection" := rfl

/-- C1 amended: with the clipboard capability absent, Copy and Paste
return normally with a failure-classified message (and a content error is
a failure message too); but Copy aborts when the record selection is
empty, and both abort when the clipboard set/get operation itself
fails. -/
theorem copy_paste_failure_handling (env : Env) (app : App) :
    (∀ ct k, app.keys_table.selected = some k → app.clipboard = none →
      ∃ a tr, run_command env app (Command.Copy ct) = .ok (a, tr) ∧
        a.prompt.output_type = OutputType.Failure ∧ a.mode = Mode.Normal) ∧
    (app.clipboard = none →
      ∃ a, run_command env app Command.Paste = .ok (a, []) ∧
        a.prompt.output_type = OutputType.Failure ∧
        a.prompt.text = "clipboard not available") ∧
    (∀ ct, app.keys_table.selected = none →
      run_command env app (Command.Copy ct) = .panicked "invalid selection") ∧
    (∀ ct k cb content e, app.keys_table.selected = some k →
      app.clipboard = some cb →
      (copyContent env app k ct).1 = .ok content →
      cb.set_contents content = .error e →
      run_command env app (Command.Copy ct)
        = .panicked "failed to set clipboard contents") ∧
    (∀ cb e, app.clipboard = some cb → cb.get_contents = .error e →
      run_command env app Command.Paste
        = .panicked "failed to get clipboard contents") := by
  refine ⟨?_, ?_, ?_, ?_, ?_⟩
  · intro ct k hsel hclip
    obtain ⟨p, hp⟩ := confirmStep_eq app (Command.Copy ct)
    simp only [run_command, hp, dispatch, copyCmd, copyContent_prompt, hsel]
    rcases hc : (copyContent env app k ct).1 with e | content
    · simp only [hc]
      exact ⟨_, _, rfl, rfl, rfl⟩
    · simp only [hc, hclip]
      exact ⟨_, _, rfl, rfl, rfl⟩
  · intro hclip
    obtain ⟨p, hp⟩ := confirmStep_eq app Command.Paste
    simp only [run_command, hp, dispatch, pasteCmd, hclip]
    exact ⟨_, rfl, rfl, rfl⟩
  · intro ct hsel
    obtain ⟨p, hp⟩ := confirmStep_eq app (Command.Copy ct)
    simp [run_command, hp, dispatch, copyCmd, hsel]
  · intro ct k cb content e hsel hclip hcontent hset
    obtain ⟨p, hp⟩ := confirmStep_eq app (Command.Copy ct)
    simp only [run_command, hp, dispatch, copyCmd, copyContent_prompt, hsel]
    simp only [hcontent, hclip, hset]
  · intro cb e hclip hget
    obtain ⟨p, hp⟩ := confirmStep_eq app Command.Paste
    simp [run_command, hp, dispatch, pasteCmd, hclip, hget]

/-- Witness for C1 at a concrete clipboard-less state. -/
theorem copy_paste_failure_handling_witness :
    (outApp (run_command env0 appNoClip Command.Paste)).map
      (fun a => (a.prompt.output_type, a.prompt.text))
      = some (OutputType.Failure, "clipboard not available") := by
  obtain ⟨a, h1, h2, h3⟩ := (copy_paste_failure_handling env0 appNoClip).2.1 rfl
  rw [h1]
  simp [outApp, h2, h3]

/-- C2 counterexample: `Set("margin", "x")` replaces the prior margin 1 by
the parse default 0 and reports success, contradicting "leaves the
option's prior stored value unchanged ... and sets a failure-classified
prompt message". -/
theorem set_margin_invalid_applied :
    appAB.keys_table_margin = 1 ∧
    (outApp (run_command env0 appAB (Command.Set "margin" "x"))).map
      (fun a => (a.keys_table_margin, a.prompt.output_type, a.prompt.text))
      = some (0, OutputType.Success, "table margin: 0") := ⟨rfl, rfl⟩

/-- C2 amended: for `armor`, `mode`, `detail`, `colored` and `output` an
invalid value leaves the stored value unchanged and reports a
failure-classified message (a usage hint for `armor`/`detail`/`colored`);
for `minimized`, `minimize` and `margin` an unparseable value stores the
type's default (false / 0) and reports success. -/
theorem set_invalid_value_behaviour (env : Env) (app : App) (v : String) :
    (parseBool v = none →
      ∃ a, run_command env app (Command.Set "armor" v) = .ok (a, []) ∧
        a.gpgme.armor = app.gpgme.armor ∧
        a.prompt.output_type = OutputType.Failure ∧
        a.prompt.text = "usage: set armor <true/false>") ∧
    (Mode.from_str v = none →
      ∃ a, run_command env app (Command.Set "mode" v) = .ok (a, []) ∧
        a.mode = app.mode ∧ a.prompt.output_type = OutputType.Failure ∧
        a.prompt.text = "invalid mode") ∧
    (KeyDetail.from_str v = none →
      ∃ a, run_command env app (Command.Set "detail" v) = .ok (a, []) ∧
        a.keys_table = app.keys_table ∧
        a.prompt.output_type = OutputType.Failure ∧
        a.prompt.text = "usage: set detail <level>") ∧
    (parseBool v = none →
      ∃ a, run_command env app (Command.Set "colored" v) = .ok (a, []) ∧
        a.state.colored = app.state.colored ∧
        a.prompt.output_type = OutputType.Failure ∧
        a.prompt.text = "usage: set colored <true/false>") ∧
    (env.path_exists v = false →
      ∃ a, run_command env app (Command.Set "output" v) = .ok (a, []) ∧
        a.gpgme.output_dir = app.gpgme.output_dir ∧
        a.prompt.output_type = OutputType.Failure ∧
        a.prompt.text = "path does not exist") ∧
    (parseBool v = none →
      ∃ a, run_command env app (Command.Set "minimized" v) = .ok (a, []) ∧
        a.state.minimized = false ∧ a.state.minimize_threshold = 0 ∧
        a.prompt.output_type = OutputType.Success) ∧
    (parseU16 v = none →
      ∃ a, run_command env app (Command.Set "minimize" v) = .ok (a, []) ∧
        a.state.minimize_threshold = 0 ∧
        a.prompt.output_type = OutputType.Success) ∧
    (parseU16 v = none →
      ∃ a, run_command env app (Command.Set "margin" v) = .ok (a, []) ∧
        a.keys_table_margin = 0 ∧
        a.prompt.output_type = OutputType.Success) := by
  refine ⟨?_, ?_, ?_, ?_, ?_, ?_, ?_, ?_⟩
  · intro h
    obtain ⟨p, hp⟩ := confirmStep_eq app (Command.Set "armor" v)
    simp only [run_command, hp, dispatch]
    refine ⟨_, rfl, ?_, ?_, ?_⟩ <;> simp [setCmd, h, Prompt.set_output]
  · intro h
    obtain ⟨p, hp⟩ := confirmStep_eq app (Command.Set "mode" v)
    simp only [run_command, hp, dispatch]
    refine ⟨_, rfl, ?_, ?_, ?_⟩ <;> simp [setCmd, h, Prompt.set_output]
  · intro h
    obtain ⟨p, hp⟩ := confirmStep_eq app (Command.Set "detail" v)
    simp only [run_command, hp, dispatch]
    refine ⟨_, rfl, ?_, ?_, ?_⟩ <;> simp [setCmd, h, Prompt.set_output]
  · intro h
    obtain ⟨p, hp⟩ := confirmStep_eq app (Command.Set "colored" v)
    simp only [run_command, hp, dispatch]
    refine ⟨_, rfl, ?_, ?_, ?_⟩ <;> simp [setCmd, h, Prompt.set_output]
  · intro h
    obtain ⟨p, hp⟩ := confirmStep_eq app (Command.Set "output" v)
    simp only [run_command, hp, dispatch]
    refine ⟨_, rfl, ?_, ?_, ?_⟩ <;> simp [setCmd, h, Prompt.set_output]
  · intro h
    obtain ⟨p, hp⟩ := confirmStep_eq app (Command.Set "minimized" v)
    simp only [run_command, hp, dispatch]
    refine ⟨_, rfl, ?_, ?_, ?_⟩ <;> simp [setCmd, h, Prompt.set_output]
  · intro h
    obtain ⟨p, hp⟩ := confirmStep_eq app (Command.Set "minimize" v)
    simp only [run_command, hp, dispatch]
    refine ⟨_, rfl, ?_, ?_⟩ <;> simp [setCmd, h, Prompt.set_output]
  · intro h
    obtain ⟨p, hp⟩ := confirmStep_eq app (Command.Set "margin" v)
    simp only [run_command, hp, dispatch]
    refine ⟨_, rfl, ?_, ?_⟩ <;> simp [setCmd, h, Prompt.set_output]

/-- Witness for C2 at a concrete invalid value. -/
theorem set_invalid_value_behaviour_witness :
    (outApp (run_command env0 appAB (Command.Set "armor" "notabool"))).map
      (fun a => (a.gpgme.armor, a.prompt.output_type, a.prompt.text))
      = some (false, OutputType.Failure, "usage: set armor <true/false>") := by
  obtain ⟨a, h1, h2, h3, h4⟩ :=
    (set_invalid_value_behaviour env0 appAB "notabool").1 rfl
  rw [h1]
  simp [outApp, h2, h3, h4, appAB, appEmpty, config0]

/-- C3: `Confirm(C)` stores C as the pending confirmation without
executing anything (no engine call, no other state change); any normally
returning non-`Confirm` command ends with the pending confirmation
cleared; and the engine's delete is invoked only by the plain `DeleteKey`
command itself. -/
theorem confirm_pending_semantics (env : Env) (app : App) :
    (∀ c, run_command env app (Command.Confirm c) =
      .ok ({ app with
        prompt := app.prompt.set_command c
        state := { app.state with show_options := false } }, [])) ∧
    (∀ c a tr, c.isConfirmCmd = false → run_command env app c = .ok (a, tr) →
      a.prompt.command = none) ∧
    (∀ c a tr kt id, run_command env app c = .ok (a, tr) →
      EngineCall.deleteKey kt id ∈ tr → c = Command.DeleteKey kt id) := by
  refine ⟨fun c => rfl, ?_, ?_⟩
  · intro c a tr hC h
    rcases (run_ok_inv env app c a tr h).1 with h1 | h1
    · rw [hC] at h1
      exact absurd h1 (by simp)
    · exact h1
  · intro c a tr kt id h hmem
    exact (run_ok_inv env app c a tr h).2 kt id hmem

/-- Witness for C3 at a concrete pending confirmation dismissed by a
`None` command. -/
theorem confirm_pending_semantics_witness :
    run_command env0 appPending Command.None =
      Outcome.ok ({ appPending with
        prompt := Prompt.clear
        state := { appPending.state with show_options := false } }, []) ∧
    appPending.prompt.command = some Command.Quit ∧
    ({ appPending with
        prompt := Prompt.clear
        state := { appPending.state with show_options := false } } : App).prompt.command
      = none :=
  ⟨rfl, rfl,
    (confirm_pending_semantics env0 appPending).2.1 Command.None _ [] rfl rfl⟩

/-- C4: while search mode is enabled a record is visible iff the
lowercase-folded joined text of its subkey or user field group contains
the lowercase-folded search term; the empty search term keeps everything
visible; order is preserved; and entering search mode (`Search`) or
leaving it (clearing the prompt) resets the visible set to the unfiltered
`default_items`. -/
theorem search_filter_spec (app : App) :
    (∀ k, app.prompt.is_search_enabled = true →
      (k ∈ (get_keys_table_rows app).keys_table.items ↔
        k ∈ app.keys_table.items ∧
          (strContains (lowerString (String.intercalate "\n"
              (k.get_subkey_info app.state.minimized))) (search_term app.prompt)
            || strContains (lowerString (String.intercalate "\n"
              (k.get_user_info app.state.minimized))) (search_term app.prompt))
            = true)) ∧
    (replacenSlash app.prompt.text = "" →
      (get_keys_table_rows app).keys_table.items = app.keys_table.items) ∧
    List.Sublist (get_keys_table_rows app).keys_table.items
      app.keys_table.items ∧
    (∀ env q, ∃ a, run_command env app (Command.Search q) = .ok (a, []) ∧
      a.keys_table.items = app.keys_table.default_items ∧
      a.keys_table.default_items = app.keys_table.default_items ∧
      a.prompt.is_search_enabled = true) ∧
    ((clearSearchMode app).keys_table.items = app.keys_table.default_items ∧
      (clearSearchMode app).prompt.is_search_enabled = false) := by
  refine ⟨?_, ?_, ?_, ?_, rfl, rfl⟩
  · intro k hs
    unfold get_keys_table_rows
    simp only [List.mem_filter]
    simp [rowFilterPred, hs, key_matches_search]
  · intro h0
    have hterm : search_term app.prompt = "" := by
      unfold search_term
      rw [h0]
      rfl
    show app.keys_table.items.filter (rowFilterPred app) = app.keys_table.items
    apply List.filter_eq_self.mpr
    intro a _
    simp [rowFilterPred, key_matches_search, hterm, strContains_empty]
  · exact List.filter_sublist _
  · intro env q
    obtain ⟨p, hp⟩ := confirmStep_eq app (Command.Search q)
    simp only [run_command, hp, dispatch, searchCmd]
    exact ⟨_, rfl, rfl, rfl, rfl⟩

/-- Witness for C4 at a concrete filtering state. -/
theorem search_filter_spec_witness :
    appSearchBob.prompt.is_search_enabled = true ∧
    keyB ∈ (get_keys_table_rows appSearchBob).keys_table.items :=
  ⟨rfl,
    ((search_filter_spec appSearchBob).1 keyB rfl).mpr
      ⟨List.mem_cons_of_mem _ (List.mem_cons_self _ _), rfl⟩⟩

/-- C8 counterexample: on a state whose secret category is cached in the
in-memory keys map and has no per-category snapshot, `ListKeys(Secret)`
performs no engine call at all (empty trace) and builds the table from the
stored map, contradicting "from a fresh engine fetch otherwise". -/
theorem list_keys_no_engine_fetch :
    appStored.keys_table_states KeyType.Secret = none ∧
    outTrace (run_command env8 appStored (Command.ListKeys KeyType.Secret))
      = some [] ∧
    (outApp (run_command env8 appStored (Command.ListKeys KeyType.Secret))).map
      (fun a => a.keys_table.items.map GpgKey.get_id) = some ["A111"] ∧
    env8.get_all_keys = Except.ok (fun _ => [keyB]) :=
  ⟨rfl, rfl, rfl, rfl⟩

/-- C8 amended: `ListKeys` snapshots the current category's table state
(and its default items) into the per-category caches, builds the target
category's table from the in-memory keys map with no engine call,
restores the target's cached cursor/scroll state when a snapshot exists
(else the freshly constructed default state), and sets the active tab to
the target category's record view. -/
theorem list_keys_behaviour (env : Env) (app : App) (kt : KeyType) :
    ∃ a, run_command env app (Command.ListKeys kt) = .ok (a, []) ∧
      a.tab = Tab.Keys kt ∧
      (∀ prev, app.tab = Tab.Keys prev →
        a.keys_table_states prev = some app.keys_table.state) ∧
      (∀ prev, app.tab = Tab.Keys prev →
        a.keys prev = app.keys_table.default_items) ∧
      (∀ prev kt', app.tab = Tab.Keys prev → kt' ≠ prev →
        a.keys kt' = app.keys kt') ∧
      (app.tab = Tab.Help → a.keys = app.keys) ∧
      (app.tab = Tab.Keys kt →
        a.keys_table.items = app.keys_table.default_items ∧
        a.keys_table.state = app.keys_table.state) ∧
      (∀ prev, app.tab = Tab.Keys prev → kt ≠ prev →
        a.keys_table.items = app.keys kt ∧
        (∀ st, app.keys_table_states kt = some st → a.keys_table.state = st) ∧
        (app.keys_table_states kt = none →
          a.keys_table.state =
            (StatefulTable.with_items (app.keys kt) : StatefulTable GpgKey).state)) ∧
      (app.tab = Tab.Help →
        a.keys_table.items = app.keys kt ∧
        (∀ st, app.keys_table_states kt = some st → a.keys_table.state = st) ∧
        (app.keys_table_states kt = none →
          a.keys_table.state =
            (StatefulTable.with_items (app.keys kt) : StatefulTable GpgKey).state)) := by
  obtain ⟨p, hp⟩ := confirmStep_eq app (Command.ListKeys kt)
  simp only [run_command, hp, dispatch]
  cases htab : app.tab with
  | Keys prev =>
    simp only [listKeysCmd, htab]
    by_cases hkp : kt = prev
    · subst hkp
      refine ⟨_, rfl, rfl, ?_, ?_, ?_, ?_, ?_, ?_, ?_⟩
      · intro prev' h'
        injection h' with h''
        subst h''
        simp
      · intro prev' h'
        injection h' with h''
        subst h''
        simp
      · intro prev' kt' h' hne
        injection h' with h''
        subst h''
        simp [hne]
      · intro h'
        exact Tab.noConfusion h'
      · intro _
        constructor
        · simp [StatefulTable.with_items]
        · simp
      · intro prev' h' hne
        injection h' with h''
        exact absurd h'' hne
      · intro h'
        exact Tab.noConfusion h'
    · cases hc : app.keys_table_states kt with
      | none =>
        simp only [if_neg hkp, hc]
        refine ⟨_, rfl, rfl, ?_, ?_, ?_, ?_, ?_, ?_, ?_⟩
        · intro prev' h'
          injection h' with h''
          subst h''
          simp
        · intro prev' h'
          injection h' with h''
          subst h''
          simp
        · intro prev' kt' h' hne
          injection h' with h''
          subst h''
          simp [hne]
        · intro h'
          exact Tab.noConfusion h'
        · intro h'
          injection h' with h''
          exact absurd h''.symm hkp
        · intro prev' h' hne
          injection h' with h''
          subst h''
          exact ⟨rfl, fun st hst => Option.noConfusion hst, fun _ => rfl⟩
        · intro h'
          exact Tab.noConfusion h'
      | some st =>
        simp only [if_neg hkp, hc]
        refine ⟨_, rfl, rfl, ?_, ?_, ?_, ?_, ?_, ?_, ?_⟩
        · intro prev' h'
          injection h' with h''
          subst h''
          simp
        · intro prev' h'
          injection h' with h''
          subst h''
          simp
        · intro prev' kt' h' hne
          injection h' with h''
          subst h''
          simp [hne]
        · intro h'
          exact Tab.noConfusion h'
        · intro h'
          injection h' with h''
          exact absurd h''.symm hkp
        · intro prev' h' hne
          injection h' with h''
          subst h''
          refine ⟨rfl, fun st' hst => ?_, fun hn => ?_⟩
          · injection hst with h3
          · exact Option.noConfusion hn
        · intro h'
          exact Tab.noConfusion h'
  | Help =>
    simp only [listKeysCmd, htab]
    cases hc : app.keys_table_states kt with
    | none =>
      simp only [hc]
      refine ⟨_, rfl, rfl, ?_, ?_, ?_, ?_, ?_, ?_, ?_⟩
      · intro prev' h'
        exact Tab.noConfusion h'
      · intro prev' h'
        exact Tab.noConfusion h'
      · intro prev' kt' h' hne
        exact Tab.noConfusion h'
      · intro _
        rfl
      · intro h'
        exact Tab.noConfusion h'
      · intro prev' h' hne
        exact Tab.noConfusion h'
      · intro _
        exact ⟨rfl, fun st hst => Option.noConfusion hst, fun _ => rfl⟩
    | some st =>
      simp only [hc]
      refine ⟨_, rfl, rfl, ?_, ?_, ?_, ?_, ?_, ?_, ?_⟩
      · intro prev' h'
        exact Tab.noConfusion h'
      · intro prev' h'
        exact Tab.noConfusion h'
      · intro prev' kt' h' hne
        exact Tab.noConfusion h'
      · intro _
        rfl
      · intro h'
        exact Tab.noConfusion h'
      · intro prev' h' hne
        exact Tab.noConfusion h'
      · intro _
        refine ⟨rfl, fun st' hst => ?_, fun hn => ?_⟩
        · injection hst with h3
        · exact Option.noConfusion hn

/-- Witness for C8 at a concrete category switch: the tab moves to the
secret view, the table is built from the stored map entry `[keyA]`, and
the live public table's default items `[keyB]` are written back into the
keys map. -/
theorem list_keys_behaviour_witness :
    (outApp (run_command env8 appStored2 (Command.ListKeys KeyType.Secret))).map
      (fun a => (a.tab, a.keys_table.items.map GpgKey.get_id,
        (a.keys KeyType.Public).map GpgKey.get_id))
      = some (Tab.Keys KeyType.Secret, ["A111"], ["B222"]) := by
  obtain ⟨a, h1, htab, _, hkeysPrev, _, _, _, hdiff, _⟩ :=
    list_keys_behaviour env8 appStored2 KeyType.Secret
  have hd := hdiff KeyType.Public rfl (by decide)
  have hkp := hkeysPrev KeyType.Public rfl
  rw [h1]
  simp [outApp, htab, hd.1, hkp, appStored2, appStored, appEmpty, keyA, keyB,
    GpgKey.get_id, StatefulTable.with_items]

end GpgTui
